import Mathlib

/-!
Verification development for the archived-report resolution and extraction
engine of the ooni backend repository.

Part A embeds the Frame Decompressor.  The decompressor itself
(`decompress_autoclaved`, module `measurements.pages`) is not among the
source files; only its unit test `tests/unit/test_autoclaved.py` is, so the
decompressor is modelled from the specification (spec section 4.1).

Part B embeds the resolution code of `api/ooniapi/measurements.py`:
the index lookup `measurement_uid_to_s3path_linenum`, the three source
probes (`_fetch_measurement_body_on_disk_by_msmt_uid`,
`_fetch_measurement_body_from_hosts`,
`_fetch_jsonl_measurement_body_clickhouse`) and the orchestrator
`_fetch_measurement_body`.  Bytes are modelled as `List Nat`, Python
exceptions as `Except`, and every external effect (spool directory, peer
hosts, database, object storage) as an oracle inside a `World` record.
Each probe additionally returns the list of external accesses it performed,
so that claims about probing order and about sources never being touched
are expressible.
-/

/-- Failure modes of the Frame Decompressor (spec section 4.1). -/
inductive ExtractError
  | corruptArchive
deriving DecidableEq, Repr

/-- Archive coordinates, field for field as in spec section 3. -/
structure ArchiveCoordinates where
  container_path : String
  frame_byte_offset : Nat
  frame_byte_length : Nat
  intra_frame_offset : Nat
  logical_length : Nat
deriving DecidableEq, Repr

/-- Modelled from the spec: core loop of `decompress_autoclaved`
(module `measurements.pages`, not present under src/; only its unit test
is).  Given the decompressed contents of the compression frames found in
the requested byte range, it keeps a running count of decompressed bytes,
drops bytes until `skip` (the intra-frame offset) bytes were dropped, then
yields chunks until exactly `len` bytes were yielded in total, stopping
even if further frames exist (spec section 4.1 step 3).  If the
decompressed bytes run out first, the record is truncated and the result
is `CorruptArchive` (step 4).  One chunk is yielded per frame touched. -/
def decompress_autoclaved : List (List Nat) → Nat → Nat →
    Except ExtractError (List (List Nat))
  | _, _, 0 => .ok []
  | [], _, Nat.succ _ => .error .corruptArchive
  | f :: fs, skip, Nat.succ n =>
    if f.length ≤ skip then
      decompress_autoclaved fs (skip - f.length) (Nat.succ n)
    else
      let chunk := (f.drop skip).take (Nat.succ n)
      (decompress_autoclaved fs 0 (Nat.succ n - chunk.length)).map (chunk :: ·)

/-- Modelled from the spec: `decompress_autoclaved` reads exactly
`frame_byte_length` compressed bytes at `frame_byte_offset` from the
container (spec section 4.1 step 1) and decompresses them as a sequence of
self-delimited frames (step 2).  The block-decompression primitive is an
external collaborator (spec section 1, non-goals), so it is a parameter
`dec` mapping the compressed byte range to the list of per-frame
decompressed contents, `none` meaning a decompression error. -/
def extract (dec : List Nat → Option (List (List Nat))) (container : List Nat)
    (coords : ArchiveCoordinates) : Except ExtractError (List (List Nat)) :=
  match dec ((container.drop coords.frame_byte_offset).take coords.frame_byte_length) with
  | none => .error .corruptArchive
  | some frames =>
      decompress_autoclaved frames coords.intra_frame_offset coords.logical_length

theorem decompress_autoclaved_ok (frames : List (List Nat)) :
    ∀ skip len : Nat, skip + len ≤ frames.flatten.length →
    ∃ chunks, decompress_autoclaved frames skip len = .ok chunks ∧
      chunks.flatten = (frames.flatten.drop skip).take len := by
  induction frames with
  | nil =>
    intro skip len h
    simp only [List.flatten_nil, List.length_nil, Nat.le_zero] at h
    have hlen : len = 0 := by omega
    subst hlen
    exact ⟨[], rfl, by simp⟩
  | cons f fs ih =>
    intro skip len h
    cases len with
    | zero => exact ⟨[], rfl, by simp⟩
    | succ n =>
      have hJ : (f :: fs).flatten.length = f.length + fs.flatten.length := by
        simp [List.flatten_cons]
      by_cases hskip : f.length ≤ skip
      · have h2 : (skip - f.length) + Nat.succ n ≤ fs.flatten.length := by omega
        obtain ⟨chunks, hok, hjoin⟩ := ih (skip - f.length) (Nat.succ n) h2
        refine ⟨chunks, ?_, ?_⟩
        · simpa [decompress_autoclaved, hskip] using hok
        · have hdrop : (f :: fs).flatten.drop skip =
              fs.flatten.drop (skip - f.length) := by
            rw [List.flatten_cons, List.drop_append_eq_append_drop,
              List.drop_eq_nil_of_le hskip, List.nil_append]
          rw [hdrop]
          exact hjoin
      · push_neg at hskip
        have hlen2 : Nat.succ n - ((f.drop skip).take (Nat.succ n)).length =
            Nat.succ n - (f.length - skip) := by
          rw [List.length_take, List.length_drop]
          rcases Nat.le_total (Nat.succ n) (f.length - skip) with hle | hle
          · rw [Nat.min_eq_left hle]
            omega
          · rw [Nat.min_eq_right hle]
        have h2 : 0 + (Nat.succ n - (f.length - skip)) ≤ fs.flatten.length := by
          omega
        obtain ⟨chunks, hok, hjoin⟩ := ih 0 (Nat.succ n - (f.length - skip)) h2
        refine ⟨(f.drop skip).take (Nat.succ n) :: chunks, ?_, ?_⟩
        · have heq : decompress_autoclaved (f :: fs) skip (Nat.succ n) =
              (decompress_autoclaved fs 0
                (Nat.succ n - ((f.drop skip).take (Nat.succ n)).length)).map
                ((f.drop skip).take (Nat.succ n) :: ·) := by
            simp [decompress_autoclaved, Nat.not_le.mpr hskip]
          rw [heq, hlen2, hok]
          rfl
        · rw [List.flatten_cons, List.flatten_cons, List.drop_append_eq_append_drop,
            List.take_append_eq_append_take, hjoin]
          have hd2 : skip - f.length = 0 := by omega
          simp [hd2, List.length_drop]

theorem decompress_autoclaved_truncated (frames : List (List Nat)) :
    ∀ skip len : Nat, 0 < len → frames.flatten.length < skip + len →
    decompress_autoclaved frames skip len = .error .corruptArchive := by
  induction frames with
  | nil =>
    intro skip len hpos _
    cases len with
    | zero => exact absurd hpos (lt_irrefl 0)
    | succ n => rfl
  | cons f fs ih =>
    intro skip len hpos h
    cases len with
    | zero => exact absurd hpos (lt_irrefl 0)
    | succ n =>
      have hJ : (f :: fs).flatten.length = f.length + fs.flatten.length := by
        simp [List.flatten_cons]
      by_cases hskip : f.length ≤ skip
      · have h2 : fs.flatten.length < (skip - f.length) + Nat.succ n := by omega
        have := ih (skip - f.length) (Nat.succ n) (Nat.succ_pos n) h2
        simpa [decompress_autoclaved, hskip] using this
      · push_neg at hskip
        have hlen2 : Nat.succ n - ((f.drop skip).take (Nat.succ n)).length =
            Nat.succ n - (f.length - skip) := by
          rw [List.length_take, List.length_drop]
          rcases Nat.le_total (Nat.succ n) (f.length - skip) with hle | hle
          · rw [Nat.min_eq_left hle]
            omega
          · rw [Nat.min_eq_right hle]
        have hpos2 : 0 < Nat.succ n - (f.length - skip) := by omega
        have h2 : fs.flatten.length < 0 + (Nat.succ n - (f.length - skip)) := by
          omega
        have hrec := ih 0 (Nat.succ n - (f.length - skip)) hpos2 h2
        have heq : decompress_autoclaved (f :: fs) skip (Nat.succ n) =
            (decompress_autoclaved fs 0
              (Nat.succ n - ((f.drop skip).take (Nat.succ n)).length)).map
              ((f.drop skip).take (Nat.succ n) :: ·) := by
          simp [decompress_autoclaved, Nat.not_le.mpr hskip]
        rw [heq, hlen2, hrec]
        rfl

/-- Claim C1: for every valid `ArchiveCoordinates` (container path, frame byte
offset, frame byte length, intra-frame offset, logical length), the
concatenation of all chunks yielded by the Frame Decompressor has length
exactly `logical_length` and its cryptographic digest equals the digest of
the known-good original record (the `logical_length` bytes of the
decompressed frame concatenation starting at `intra_frame_offset`).  The
statement is universally quantified over the coordinates, so it covers a
record confined to one frame at offset 0, confined to one frame at a
non-zero offset, ending exactly at a frame boundary, and spanning two or
more frames with non-zero offsets at both ends. -/
theorem extract_byte_exact (dec : List Nat → Option (List (List Nat)))
    (container : List Nat) (coords : ArchiveCoordinates)
    (frames : List (List Nat))
    (hdec : dec ((container.drop coords.frame_byte_offset).take
      coords.frame_byte_length) = some frames)
    (hvalid : coords.intra_frame_offset + coords.logical_length ≤
      frames.flatten.length) :
    ∃ chunks, extract dec container coords = .ok chunks ∧
      chunks.flatten.length = coords.logical_length ∧
      chunks.flatten = (frames.flatten.drop coords.intra_frame_offset).take
        coords.logical_length ∧
      ∀ (α : Type) (digest : List Nat → α),
        digest chunks.flatten = digest
          ((frames.flatten.drop coords.intra_frame_offset).take
            coords.logical_length) := by
  obtain ⟨chunks, hok, hjoin⟩ :=
    decompress_autoclaved_ok frames coords.intra_frame_offset
      coords.logical_length hvalid
  refine ⟨chunks, ?_, ?_, hjoin, ?_⟩
  · simp [extract, hdec, hok]
  · rw [hjoin, List.length_take, List.length_drop]
    exact Nat.min_eq_left (by omega)
  · intro α digest
    rw [hjoin]

/-- Witness for C1 on a record spanning two frames with non-zero offsets at
both ends: frames decompress to `[0,1,2,3]` and `[4,5,6,7]`, the record is
the 4 bytes starting at decompressed offset 2. -/
def dec1 : List Nat → Option (List (List Nat)) :=
  fun bs => if bs = [10, 11] then some [[0, 1, 2, 3], [4, 5, 6, 7]] else none

def container1 : List Nat := [9, 10, 11, 12]

def coords1 : ArchiveCoordinates :=
  { container_path := "2016-07-07/http_invalid_request_line.0.tar.lz4"
    frame_byte_offset := 1
    frame_byte_length := 2
    intra_frame_offset := 2
    logical_length := 4 }

theorem extract_byte_exact_witness :
    (dec1 ((container1.drop coords1.frame_byte_offset).take
      coords1.frame_byte_length) = some [[0, 1, 2, 3], [4, 5, 6, 7]]) ∧
    (coords1.intra_frame_offset + coords1.logical_length ≤
      ([[0, 1, 2, 3], [4, 5, 6, 7]] : List (List Nat)).flatten.length) ∧
    ∃ chunks, extract dec1 container1 coords1 = .ok chunks ∧
      chunks.flatten.length = coords1.logical_length ∧
      chunks.flatten =
        (([[0, 1, 2, 3], [4, 5, 6, 7]] : List (List Nat)).flatten.drop
          coords1.intra_frame_offset).take coords1.logical_length ∧
      ∀ (α : Type) (digest : List Nat → α),
        digest chunks.flatten = digest
          ((([[0, 1, 2, 3], [4, 5, 6, 7]] : List (List Nat)).flatten.drop
            coords1.intra_frame_offset).take coords1.logical_length) :=
  ⟨by decide, by decide,
    extract_byte_exact dec1 container1 coords1 [[0, 1, 2, 3], [4, 5, 6, 7]]
      (by decide) (by decide)⟩

/-- Claim C2: for every `ArchiveCoordinates` whose container decompresses to
fewer than `intra_frame_offset + logical_length` bytes, extraction fails
with `CorruptArchive`; in particular it never returns a body shorter than
`logical_length`. -/
theorem extract_truncation (dec : List Nat → Option (List (List Nat)))
    (container : List Nat) (coords : ArchiveCoordinates)
    (frames : List (List Nat))
    (hdec : dec ((container.drop coords.frame_byte_offset).take
      coords.frame_byte_length) = some frames)
    (hpos : 0 < coords.logical_length)
    (htrunc : frames.flatten.length <
      coords.intra_frame_offset + coords.logical_length) :
    extract dec container coords = .error .corruptArchive := by
  have h := decompress_autoclaved_truncated frames coords.intra_frame_offset
    coords.logical_length hpos htrunc
  simp [extract, hdec, h]

def dec2 : List Nat → Option (List (List Nat)) :=
  fun bs => if bs = [5, 6, 7] then some [[0, 1], [2]] else none

def container2 : List Nat := [5, 6, 7]

def coords2 : ArchiveCoordinates :=
  { container_path := "2013-05-06/tcp_connect.0.tar.lz4"
    frame_byte_offset := 0
    frame_byte_length := 3
    intra_frame_offset := 2
    logical_length := 5 }

theorem extract_truncation_witness :
    (dec2 ((container2.drop coords2.frame_byte_offset).take
      coords2.frame_byte_length) = some [[0, 1], [2]]) ∧
    (0 < coords2.logical_length) ∧
    (([[0, 1], [2]] : List (List Nat)).flatten.length <
      coords2.intra_frame_offset + coords2.logical_length) ∧
    extract dec2 container2 coords2 = .error .corruptArchive :=
  ⟨by decide, by decide, by decide,
    extract_truncation dec2 container2 coords2 [[0, 1], [2]]
      (by decide) (by decide) (by decide)⟩

/-- Error taxonomy of the resolution engine.  `msmtNotFound` models the
`MsmtNotFound` exception (the terminal NotFound, also raised by the index
lookup when no row matches, which spec section 7 calls `NotIndexed`);
`malformedIdentifier` models the `AssertionError` and `ValueError` raised by
the structural checks on a `measurement_uid`; `unexpectedFormat` models the
exception raised by `_unwrap_post` on a wrapper whose format discriminator
is not the string json; `dbError` models an exception raised by the
database layer inside `query_click_one_row` (such as the OperationalError
this file handles elsewhere), which is not an `MsmtNotFound` and therefore
escapes the uid branch of the clickhouse probe; `spoolIoError` models an
`OSError` other than `FileNotFoundError` raised while opening or reading a
spool file, and `spoolParseError` a `ujson.load` failure on it - the spool
probe try block catches only `FileNotFoundError`, so both escape. -/
inductive FetchError
  | msmtNotFound
  | malformedIdentifier
  | unexpectedFormat
  | dbError
  | spoolIoError
  | spoolParseError
deriving DecidableEq, Repr

def exceptDecEq {ε α : Type} [DecidableEq ε] [DecidableEq α] :
    DecidableEq (Except ε α)
  | .error e1, .error e2 =>
    if h : e1 = e2 then .isTrue (by rw [h])
    else .isFalse (fun hh => by cases hh; exact h rfl)
  | .error _, .ok _ => .isFalse (fun hh => by cases hh)
  | .ok _, .error _ => .isFalse (fun hh => by cases hh)
  | .ok a1, .ok a2 =>
    if h : a1 = a2 then .isTrue (by rw [h])
    else .isFalse (fun hh => by cases hh; exact h rfl)

instance {ε α : Type} [DecidableEq ε] [DecidableEq α] :
    DecidableEq (Except ε α) := exceptDecEq

/-- One external access performed while probing: a spool file read, an HTTP
GET to a peer host, a jsonl index lookup (by uid or by report_id and
input), or an S3 object fetch.  Probes return the list of accesses they
performed so that probing order and untouched sources are expressible. -/
inductive Access
  | spoolRead (path : String)
  | hostGet (host : String) (path : String)
  | jsonlLookupByUid (uid : String)
  | jsonlLookupByRidInput (report_id : String) (input : String)
  | s3Fetch (s3path : String) (linenum : Nat)
deriving DecidableEq, Repr

def Access.isSpool : Access → Bool
  | .spoolRead _ => true
  | _ => false

def Access.isHost : Access → Bool
  | .hostGet _ _ => true
  | _ => false

def Access.isArchive : Access → Bool
  | .jsonlLookupByUid _ => true
  | .jsonlLookupByRidInput _ _ => true
  | .s3Fetch _ _ => true
  | _ => false

/-- Parsed JSON wrapper object of a raw POST, as read from a spool file or
from a peer host body: an optional `format` discriminator and an optional
`content` payload.  The payload is stored already serialized (the code
returns `ujson.dumps(content).encode()`); a missing `content` defaults to
the empty JSON object, whose serialization is the two bytes 123, 125. -/
structure Post where
  format : Option String
  content : Option (List Nat)
deriving DecidableEq, Repr

/-- Embeds `_unwrap_post` (measurements.py lines 216-220) composed with the
`ujson.dumps(...).encode()` done by both callers: returns the serialized
content payload when the format discriminator is exactly json, raises
otherwise. -/
def unwrap_post (post : Post) : Except FetchError (List Nat) :=
  if post.format.getD "" = "json" then .ok (post.content.getD [123, 125])
  else .error .unexpectedFormat

/-- Row of the fastpath table (the columns used by the lookup). -/
structure FastpathRow where
  measurement_uid : String
  report_id : String
  input : String
deriving DecidableEq, Repr

/-- Row of the jsonl index table. -/
structure JsonlRow where
  report_id : String
  input : String
  s3path : String
  linenum : Nat
deriving DecidableEq, Repr

/-- The two database tables consulted by the index lookups. -/
structure Db where
  fastpath : List FastpathRow
  jsonl : List JsonlRow

/-- Outcome of one HTTP GET to a peer host: a status code together with the
parse result of the body (`none` models `ujson.loads` raising on a
malformed payload), or a transport error raised by the request itself. -/
inductive HttpResult
  | response (status : Nat) (data : Option Post)
  | transportError
deriving DecidableEq, Repr

/-- Outcome of opening and json-parsing one spool file (lines 237-241):
`missing` is `FileNotFoundError` (the only exception the probe catches),
`found` a successfully parsed wrapper, `ioError` any other `OSError` from
the open or read, and `parseError` a `ujson.load` failure; the latter two
raise out of the probe. -/
inductive SpoolRead
  | missing
  | found (post : Post)
  | ioError
  | parseError
deriving DecidableEq, Repr

/-- One `query_click_one_row` invocation, identified by its parameters. -/
inductive DbQuery
  | byUid (uid : String)
  | byRidInput (report_id : String) (input : String)
deriving DecidableEq, Repr

/-- The read-only external collaborators of one resolution request: the
spool directory (whose reads can fail in every way the code distinguishes),
the configured `OTHER_COLLECTORS` peer list, the per-host HTTP behaviour,
the database tables together with a per-query flag telling whether the
database layer itself raises on that query (modelling OperationalError and
the like), and S3 (`none` models any fetch failure, including a missing
line; the S3 fetch is wrapped in `except Exception`, so finer distinctions
are unobservable). -/
structure World where
  spool : String → SpoolRead
  hosts : List String
  hostResp : String → String → HttpResult
  db : Db
  dbFails : DbQuery → Bool
  s3 : String → Nat → Option (List Nat)

/-- Python `str.split` with a one-character separator, on code points. -/
def chSplit (sep : Char) : List Char → List (List Char)
  | [] => [[]]
  | c :: cs =>
    let r := chSplit sep cs
    if c = sep then [] :: r
    else
      match r with
      | [] => [[c]]
      | x :: xs => (c :: x) :: xs

def isPyWs (c : Char) : Bool :=
  c == ' ' || c == '\t' || c == '\n' || c == '\r' || c == '\x0b' || c == '\x0c'

def pyTrim (l : List Char) : List Char :=
  ((l.dropWhile isPyWs).reverse.dropWhile isPyWs).reverse

/-- Success condition of Python `int(s)`: after stripping surrounding
whitespace and one optional sign, a nonempty run of digits remains. -/
def pyIntOk (l : List Char) : Bool :=
  let t := pyTrim l
  let t2 := match t with
            | c :: cs => if c == '+' || c == '-' then cs else t
            | [] => t
  !t2.isEmpty && t2.all Char.isDigit

def startsWith20 : List Char → Bool
  | c1 :: c2 :: _ => c1 == '2' && c2 == '0'
  | _ => false

/-- Embeds the identical structural checks and path construction performed
by both the spool probe (lines 230-235) and the peer-host probe (lines
265-269): assert the uid starts with 20, split on underscores into exactly
four fields, check the first ten characters of the timestamp parse as an
integer, and build `hour_cc_testname/uid.post`.  Returns `none` when any
check raises, in which case no path is constructed. -/
def spoolRelPath (uid : String) : Option String :=
  if startsWith20 uid.data then
    match chSplit '_' uid.data with
    | [tstamp, cc, testname, _hash] =>
      if pyIntOk (tstamp.take 10) then
        some ⟨tstamp.take 10 ++ '_' :: cc ++ '_' :: testname ++ '/' ::
          uid.data ++ ".post".data⟩
      else none
    | _ => none
  else none

/-- Embeds `_fetch_measurement_body_on_disk_by_msmt_uid` (lines 223-243).
The structural checks raise before the spool is read; only
`FileNotFoundError` is caught (returning `none` for not present); any other
IO error, a wrapper that fails to parse, and a wrapper of unexpected
format all raise out of the probe. -/
def fetch_measurement_body_on_disk_by_msmt_uid (w : World) (msmt_uid : String) :
    Except FetchError (Option (List Nat)) × List Access :=
  match spoolRelPath msmt_uid with
  | none => (.error .malformedIdentifier, [])
  | some path =>
    match w.spool path with
    | .missing => (.ok none, [.spoolRead path])
    | .ioError => (.error .spoolIoError, [.spoolRead path])
    | .parseError => (.error .spoolParseError, [.spoolRead path])
    | .found post =>
      match unwrap_post post with
      | .error e => (.error e, [.spoolRead path])
      | .ok body => (.ok (some body), [.spoolRead path])

/-- Embeds the per-host loop of `_fetch_measurement_body_from_hosts` (lines
274-293): hosts are consulted in configured order; 404 means not present
and the next host is tried; any status other than 200 means the next host
is tried; a 200 body that fails to parse, or parses to a wrapper of
unexpected format, is caught and the next host is tried; a transport error
is caught and the next host is tried; a 200 wrapper with format json
returns its serialized content immediately. -/
def fetch_from_hosts_loop (w : World) (path : String) :
    List String → Option (List Nat) × List Access
  | [] => (none, [])
  | h :: hs =>
    let r := fetch_from_hosts_loop w path hs
    let cont := (r.1, Access.hostGet h path :: r.2)
    match w.hostResp h path with
    | .transportError => cont
    | .response status data =>
      if status = 404 then cont
      else if status ≠ 200 then cont
      else
        match data with
        | none => cont
        | some post =>
          match unwrap_post post with
          | .error _ => cont
          | .ok body => (some body, [Access.hostGet h path])

/-- Embeds `_fetch_measurement_body_from_hosts` (lines 258-293): the
structural uid checks run inside a try block, so a malformed uid yields
`none` without any network access. -/
def fetch_measurement_body_from_hosts (w : World) (msmt_uid : String) :
    Option (List Nat) × List Access :=
  match spoolRelPath msmt_uid with
  | none => (none, [])
  | some path => fetch_from_hosts_loop w path w.hosts

/-- Embeds `measurement_uid_to_s3path_linenum` (lines 84-98): the subquery
resolves the (report_id, input) pairs of the fastpath rows carrying the
uid, the outer query returns the coordinates of one jsonl row whose
(report_id, input) is among them, LIMIT 1; raises `MsmtNotFound` when no
row matches. -/
def measurement_uid_to_s3path_linenum (db : Db) (uid : String) :
    Except FetchError (String × Nat) :=
  match db.jsonl.find? (fun j =>
      ((db.fastpath.filter (fun r => r.measurement_uid == uid)).map
        (fun r => (r.report_id, r.input))).contains (j.report_id, j.input)) with
  | none => .error .msmtNotFound
  | some j => .ok (j.s3path, j.linenum)

/-- Embeds `report_id_input_to_s3path_linenum` (lines 167-182). -/
def report_id_input_to_s3path_linenum (db : Db) (report_id inp : String) :
    Except FetchError (String × Nat) :=
  match db.jsonl.find? (fun j => j.report_id == report_id && j.input == inp) with
  | none => .error .msmtNotFound
  | some j => .ok (j.s3path, j.linenum)

/-- Embeds `_fetch_jsonl_measurement_body_clickhouse` (lines 185-213).  The
uid branch (lines 193-198) catches only `MsmtNotFound` from the index
lookup, so a database-layer error raised there (`World.dbFails`) escapes
the probe; the (report_id, input) branch (lines 200-206) is wrapped in
`except Exception` and absorbs the same failure, as does the S3 fetch
(lines 208-213); a missing input is replaced by the empty string before
the (report_id, input) lookup. -/
def fetch_jsonl_measurement_body_clickhouse (w : World) (report_id : String)
    (input : Option String) (measurement_uid : Option String) :
    Except FetchError (Option (List Nat)) × List Access :=
  match measurement_uid with
  | some uid =>
    if w.dbFails (.byUid uid) then (.error .dbError, [.jsonlLookupByUid uid])
    else
      match measurement_uid_to_s3path_linenum w.db uid with
      | .error _ => (.ok none, [.jsonlLookupByUid uid])
      | .ok (p, n) => (.ok (w.s3 p n), [.jsonlLookupByUid uid, .s3Fetch p n])
  | none =>
    let inp := match input with
               | none => ""
               | some s => s
    if w.dbFails (.byRidInput report_id inp) then
      (.ok none, [.jsonlLookupByRidInput report_id inp])
    else
      match report_id_input_to_s3path_linenum w.db report_id inp with
      | .error _ => (.ok none, [.jsonlLookupByRidInput report_id inp])
      | .ok (p, n) =>
        (.ok (w.s3 p n), [.jsonlLookupByRidInput report_id inp, .s3Fetch p n])

/-- Python truthiness of an `Optional[bytes]` value: `None` and the empty
byte string are falsy. -/
def truthy : Option (List Nat) → Bool
  | some (_ :: _) => true
  | _ => false

/-- Embeds the short-circuiting `or` between fallible body producers: an
exception propagates, a truthy value short-circuits, and only on a falsy
value does the next producer count (its accesses are appended to the trace
exactly in that case, modelling that Python evaluates it lazily). -/
def orElseT (a b : Except FetchError (Option (List Nat)) × List Access) :
    Except FetchError (Option (List Nat)) × List Access :=
  match a with
  | (.error e, tr) => (.error e, tr)
  | (.ok v, tr) => if truthy v then (.ok v, tr) else (b.1, tr ++ b.2)

/-- Wraps a probe that catches all its exceptions (the peer-host probe) as
a producer that never raises. -/
def liftProbe (p : Option (List Nat) × List Access) :
    Except FetchError (Option (List Nat)) × List Access :=
  (.ok p.1, p.2)

/-- Embeds lines 338-343: a truthy body is returned, otherwise
`MsmtNotFound` is raised; an exception from the chain propagates. -/
def finalizeBody (r : Except FetchError (Option (List Nat)) × List Access) :
    Except FetchError (List Nat) × List Access :=
  match r with
  | (.error e, tr) => (.error e, tr)
  | (.ok (some (b :: bs)), tr) => (.ok (b :: bs), tr)
  | (.ok _, tr) => (.error .msmtNotFound, tr)

/-- Code-point lexicographic order on character lists, the semantics of the
Python string comparison used by the freshness test. -/
def lexLt : List Char → List Char → Bool
  | [], [] => false
  | [], _ :: _ => true
  | _ :: _, [] => false
  | a :: as, b :: bs => if a < b then true else if b < a then false else lexLt as bs

/-- Embeds line 314, `fresh = measurement_uid > ts`, where `ts` is the
current UTC time minus one hour formatted as twelve digits YYYYmmddHHMM
(line 313); the current time enters the model only through `ts`. -/
def isFresh (ts measurement_uid : String) : Bool :=
  lexLt ts.data measurement_uid.data

/-- Embeds lines 317-324: spool, then peer hosts, then archive. -/
def freshChain (w : World) (report_id : String) (input : Option String)
    (uid : String) : Except FetchError (Option (List Nat)) × List Access :=
  orElseT (fetch_measurement_body_on_disk_by_msmt_uid w uid)
    (orElseT (liftProbe (fetch_measurement_body_from_hosts w uid))
      (fetch_jsonl_measurement_body_clickhouse w report_id input (some uid)))

/-- Embeds lines 326-331: archive, then spool, then peer hosts. -/
def archivedChain (w : World) (report_id : String) (input : Option String)
    (uid : String) : Except FetchError (Option (List Nat)) × List Access :=
  orElseT (fetch_jsonl_measurement_body_clickhouse w report_id input
      (some uid))
    (orElseT (fetch_measurement_body_on_disk_by_msmt_uid w uid)
      (liftProbe (fetch_measurement_body_from_hosts w uid)))

/-- Embeds the orchestrator `_fetch_measurement_body` (lines 296-343).  The
identifier is the triple (report_id, input, measurement_uid); the new
format test is five underscores in the report_id and a nonempty uid; the
freshness test compares the uid against the cutoff string `ts`; the uid is
passed to the clickhouse probe as a present (`some`) value because the
Python parameter is a string, never None. -/
def fetch_measurement_body (w : World) (ts : String) (report_id : String)
    (input : Option String) (measurement_uid : String) :
    Except FetchError (List Nat) × List Access :=
  let u_count := report_id.data.count '_'
  let new_format := u_count == 5 && !measurement_uid.data.isEmpty
  if new_format && isFresh ts measurement_uid then
    finalizeBody (freshChain w report_id input measurement_uid)
  else if new_format then
    finalizeBody (archivedChain w report_id input measurement_uid)
  else
    finalizeBody (fetch_jsonl_measurement_body_clickhouse w report_id input
      (some measurement_uid))

theorem orElseT_truthy (v : Option (List Nat)) (tr : List Access)
    (b : Except FetchError (Option (List Nat)) × List Access)
    (h : truthy v = true) : orElseT (.ok v, tr) b = (.ok v, tr) := by
  simp [orElseT, h]

theorem orElseT_falsy (v : Option (List Nat)) (tr : List Access)
    (b : Except FetchError (Option (List Nat)) × List Access)
    (h : truthy v = false) :
    orElseT (.ok v, tr) b = (b.1, tr ++ b.2) := by
  simp [orElseT, h]

theorem finalizeBody_truthy (b : List Nat) (tr : List Access) (h : b ≠ []) :
    finalizeBody (.ok (some b), tr) = (.ok b, tr) := by
  cases b with
  | nil => exact absurd rfl h
  | cons x xs => rfl

theorem finalizeBody_falsy (v : Option (List Nat)) (tr : List Access)
    (h : truthy v = false) :
    finalizeBody (.ok v, tr) = (.error .msmtNotFound, tr) := by
  cases v with
  | none => rfl
  | some b =>
    cases b with
    | nil => rfl
    | cons x xs => simp [truthy] at h

theorem disk_trace_spool (w : World) (uid : String) :
    ((fetch_measurement_body_on_disk_by_msmt_uid w uid).2.all
      Access.isSpool) = true := by
  cases hrel : spoolRelPath uid with
  | none => simp [fetch_measurement_body_on_disk_by_msmt_uid, hrel]
  | some path =>
    cases hsp : w.spool path with
    | missing =>
      simp [fetch_measurement_body_on_disk_by_msmt_uid, hrel, hsp, Access.isSpool]
    | ioError =>
      simp [fetch_measurement_body_on_disk_by_msmt_uid, hrel, hsp, Access.isSpool]
    | parseError =>
      simp [fetch_measurement_body_on_disk_by_msmt_uid, hrel, hsp, Access.isSpool]
    | found post =>
      cases hup : unwrap_post post with
      | error e =>
        simp [fetch_measurement_body_on_disk_by_msmt_uid, hrel, hsp, hup,
          Access.isSpool]
      | ok body =>
        simp [fetch_measurement_body_on_disk_by_msmt_uid, hrel, hsp, hup,
          Access.isSpool]

theorem hosts_loop_trace_host (w : World) (path : String) (hs : List String) :
    ((fetch_from_hosts_loop w path hs).2.all Access.isHost) = true := by
  induction hs with
  | nil => rfl
  | cons h t ih =>
    cases hr : w.hostResp h path with
    | transportError => simp [fetch_from_hosts_loop, hr, Access.isHost, ih]
    | response status data =>
      by_cases h404 : status = 404
      · simp [fetch_from_hosts_loop, hr, h404, Access.isHost, ih]
      · by_cases h200 : status = 200
        · subst h200
          cases data with
          | none => simp [fetch_from_hosts_loop, hr, h404, Access.isHost, ih]
          | some post =>
            cases hup : unwrap_post post with
            | error e =>
              simp [fetch_from_hosts_loop, hr, h404, hup, Access.isHost, ih]
            | ok body =>
              simp [fetch_from_hosts_loop, hr, h404, hup, Access.isHost]
        · simp [fetch_from_hosts_loop, hr, h404, h200, Access.isHost, ih]

theorem hosts_trace_host (w : World) (uid : String) :
    ((fetch_measurement_body_from_hosts w uid).2.all Access.isHost) = true := by
  cases hrel : spoolRelPath uid with
  | none => simp [fetch_measurement_body_from_hosts, hrel]
  | some path =>
    simpa [fetch_measurement_body_from_hosts, hrel] using
      hosts_loop_trace_host w path w.hosts

theorem click_trace_archive (w : World) (report_id : String)
    (input : Option String) (measurement_uid : Option String) :
    ((fetch_jsonl_measurement_body_clickhouse w report_id input
      measurement_uid).2.all Access.isArchive) = true := by
  cases measurement_uid with
  | some uid =>
    by_cases hdb : w.dbFails (.byUid uid) = true
    · simp [fetch_jsonl_measurement_body_clickhouse, hdb, Access.isArchive]
    · cases hq : measurement_uid_to_s3path_linenum w.db uid with
      | error e =>
        simp [fetch_jsonl_measurement_body_clickhouse, hdb, hq,
          Access.isArchive]
      | ok pn =>
        simp [fetch_jsonl_measurement_body_clickhouse, hdb, hq,
          Access.isArchive]
  | none =>
    cases input with
    | none =>
      by_cases hdb : w.dbFails (.byRidInput report_id "") = true
      · simp [fetch_jsonl_measurement_body_clickhouse, hdb, Access.isArchive]
      · cases hq : report_id_input_to_s3path_linenum w.db report_id "" with
        | error e =>
          simp [fetch_jsonl_measurement_body_clickhouse, hdb, hq,
            Access.isArchive]
        | ok pn =>
          simp [fetch_jsonl_measurement_body_clickhouse, hdb, hq,
            Access.isArchive]
    | some t =>
      by_cases hdb : w.dbFails (.byRidInput report_id t) = true
      · simp [fetch_jsonl_measurement_body_clickhouse, hdb, Access.isArchive]
      · cases hq : report_id_input_to_s3path_linenum w.db report_id t with
        | error e =>
          simp [fetch_jsonl_measurement_body_clickhouse, hdb, hq,
            Access.isArchive]
        | ok pn =>
          simp [fetch_jsonl_measurement_body_clickhouse, hdb, hq,
            Access.isArchive]

theorem all_weaken {l : List Access} {p q : Access → Bool}
    (himp : ∀ a, p a = true → q a = true) (h : l.all p = true) :
    l.all q = true := by
  rw [List.all_eq_true] at h ⊢
  exact fun x hx => himp x (h x hx)

theorem fetch_body_fresh_eq (w : World) (ts report_id : String)
    (input : Option String) (uid : String)
    (hc : report_id.data.count '_' = 5) (hu : uid.data ≠ [])
    (hf : isFresh ts uid = true) :
    fetch_measurement_body w ts report_id input uid =
      finalizeBody (freshChain w report_id input uid) := by
  have h1 : (report_id.data.count '_' == 5) = true := by simp [hc]
  have h2 : uid.data.isEmpty = false := by
    cases hdata : uid.data with
    | nil => exact absurd hdata hu
    | cons c cs => rfl
  simp [fetch_measurement_body, h1, h2, hf]

theorem fetch_body_archived_eq (w : World) (ts report_id : String)
    (input : Option String) (uid : String)
    (hc : report_id.data.count '_' = 5) (hu : uid.data ≠ [])
    (hf : isFresh ts uid = false) :
    fetch_measurement_body w ts report_id input uid =
      finalizeBody (archivedChain w report_id input uid) := by
  have h1 : (report_id.data.count '_' == 5) = true := by simp [hc]
  have h2 : uid.data.isEmpty = false := by
    cases hdata : uid.data with
    | nil => exact absurd hdata hu
    | cons c cs => rfl
  simp [fetch_measurement_body, h1, h2, hf]

theorem fetch_body_old_eq (w : World) (ts report_id : String)
    (input : Option String) (uid : String)
    (h : report_id.data.count '_' ≠ 5 ∨ uid.data = []) :
    fetch_measurement_body w ts report_id input uid =
      finalizeBody (fetch_jsonl_measurement_body_clickhouse w report_id input
        (some uid)) := by
  have hnf : (report_id.data.count '_' == 5 && !uid.data.isEmpty) = false := by
    rcases h with h | h
    · simp [h]
    · simp [h]
  simp [fetch_measurement_body, hnf]

/-- Claim C3: for every identifier classified Fresh (new-format report_id
with five underscores, nonempty measurement_uid, uid above the one-hour
cutoff), the orchestrator probes local spool, then peer hosts, then
archive; when exactly one source returns a body, that body is returned and
no source configured after it in this order is touched (the access trace
contains only accesses of the sources up to and including the successful
one, in chain order). -/
theorem fresh_chain_order (w : World) (ts report_id : String)
    (input : Option String) (uid : String)
    (hc : report_id.data.count '_' = 5) (hu : uid.data ≠ [])
    (hf : isFresh ts uid = true) :
    (∀ b trd, b ≠ [] →
      fetch_measurement_body_on_disk_by_msmt_uid w uid = (.ok (some b), trd) →
      fetch_measurement_body w ts report_id input uid = (.ok b, trd) ∧
      trd.all Access.isSpool = true) ∧
    (∀ dv trd b trh,
      fetch_measurement_body_on_disk_by_msmt_uid w uid = (.ok dv, trd) →
      truthy dv = false → b ≠ [] →
      fetch_measurement_body_from_hosts w uid = (some b, trh) →
      fetch_measurement_body w ts report_id input uid = (.ok b, trd ++ trh) ∧
      (trd ++ trh).all (fun a => a.isSpool || a.isHost) = true) ∧
    (∀ dv trd hv trh b trc,
      fetch_measurement_body_on_disk_by_msmt_uid w uid = (.ok dv, trd) →
      truthy dv = false →
      fetch_measurement_body_from_hosts w uid = (hv, trh) → truthy hv = false →
      b ≠ [] →
      fetch_jsonl_measurement_body_clickhouse w report_id input (some uid) =
        (.ok (some b), trc) →
      fetch_measurement_body w ts report_id input uid =
        (.ok b, trd ++ (trh ++ trc))) := by
  refine ⟨?_, ?_, ?_⟩
  · intro b trd hb hdisk
    have htr : truthy (some b) = true := by
      cases b with
      | nil => exact absurd rfl hb
      | cons x xs => rfl
    refine ⟨?_, ?_⟩
    · rw [fetch_body_fresh_eq w ts report_id input uid hc hu hf]
      unfold freshChain
      rw [hdisk, orElseT_truthy _ _ _ htr, finalizeBody_truthy _ _ hb]
    · have t1 := disk_trace_spool w uid
      rw [hdisk] at t1
      exact t1
  · intro dv trd b trh hdisk hdv hb hhosts
    have htr : truthy (some b) = true := by
      cases b with
      | nil => exact absurd rfl hb
      | cons x xs => rfl
    refine ⟨?_, ?_⟩
    · rw [fetch_body_fresh_eq w ts report_id input uid hc hu hf]
      unfold freshChain
      rw [hdisk, orElseT_falsy _ _ _ hdv, hhosts]
      have hstep : orElseT (liftProbe ((some b : Option (List Nat)), trh))
          (fetch_jsonl_measurement_body_clickhouse w report_id input
            (some uid)) = (.ok (some b), trh) := by
        simp [liftProbe, orElseT, htr]
      rw [hstep]
      show finalizeBody (.ok (some b), trd ++ trh) = (.ok b, trd ++ trh)
      rw [finalizeBody_truthy _ _ hb]
    · have t1 := disk_trace_spool w uid
      rw [hdisk] at t1
      have t2 := hosts_trace_host w uid
      rw [hhosts] at t2
      have t1w : trd.all (fun a => a.isSpool || a.isHost) = true :=
        all_weaken (fun a ha => by simp [ha]) t1
      have t2w : trh.all (fun a => a.isSpool || a.isHost) = true :=
        all_weaken (fun a ha => by simp [ha]) t2
      simp [List.all_append, t1w, t2w]
  · intro dv trd hv trh b trc hdisk hdv hhosts hhv hb hclick
    have htr : truthy (some b) = true := by
      cases b with
      | nil => exact absurd rfl hb
      | cons x xs => rfl
    rw [fetch_body_fresh_eq w ts report_id input uid hc hu hf]
    unfold freshChain
    rw [hdisk, orElseT_falsy _ _ _ hdv, hhosts, hclick]
    have hstep : orElseT (liftProbe (hv, trh))
        ((.ok (some b) : Except FetchError (Option (List Nat))), trc) =
        (.ok (some b), trh ++ trc) := by
      simp [liftProbe, orElseT, hhv]
    rw [hstep]
    show finalizeBody (.ok (some b), trd ++ (trh ++ trc)) =
      (.ok b, trd ++ (trh ++ trc))
    rw [finalizeBody_truthy _ _ hb]

def uid3 : String := "20990101000000.000000_IT_webconnectivity_w3claim"

def rid3 : String := "20990101T000000Z_webconnectivity_IT_1234_n1_w3"

def path3 : String :=
  "2099010100_IT_webconnectivity/20990101000000.000000_IT_webconnectivity_w3claim.post"

def w3 : World :=
  { spool := fun p => if p = path3
      then .found { format := some "json", content := some [1, 2, 3] }
      else .missing
    hosts := ["h1"]
    hostResp := fun _ _ => .response 404 none
    db := { fastpath := [], jsonl := [] }
    dbFails := fun _ => false
    s3 := fun _ _ => none }

theorem fresh_chain_order_witness :
    rid3.data.count '_' = 5 ∧ uid3.data ≠ [] ∧
    isFresh "202101010000" uid3 = true ∧ ([1, 2, 3] : List Nat) ≠ [] ∧
    fetch_measurement_body_on_disk_by_msmt_uid w3 uid3 =
      (.ok (some [1, 2, 3]), [.spoolRead path3]) ∧
    (fetch_measurement_body w3 "202101010000" rid3 none uid3 =
      (.ok [1, 2, 3], [.spoolRead path3]) ∧
     ([Access.spoolRead path3].all Access.isSpool) = true) :=
  ⟨by decide, by decide, by decide, by decide, by decide,
   (fresh_chain_order w3 "202101010000" rid3 none uid3 (by decide) (by decide)
     (by decide)).1 [1, 2, 3] [.spoolRead path3] (by decide) (by decide)⟩

def w4cex : World :=
  { spool := fun _ => .found { format := some "json", content := some [7] }
    hosts := ["peer.example"]
    hostResp := fun _ _ =>
      .response 200 (some { format := some "json", content := some [42] })
    db := { fastpath := [], jsonl := [] }
    dbFails := fun _ => false
    s3 := fun _ _ => none }

/-- Claim C4 counterexample: an identifier given only in the (report_id,
input) form (empty measurement_uid, treated as non-fresh) is resolved
through the archive path only.  In a world where every spool path holds a
json body and every peer host answers 200 with a json wrapper, the
orchestrator still fails with NotFound after a single archive index
lookup; the trace contains no spool access and no host access, so it never
falls back to the local spool or the peer hosts, contradicting the claimed
archive then spool then peers ordering for this identifier form. -/
theorem archived_rid_input_only_cex :
    fetch_measurement_body w4cex "202610120000" "rid" (some "inp") "" =
      (.error .msmtNotFound, [.jsonlLookupByUid ""]) ∧
    Access.isSpool (.jsonlLookupByUid "") = false ∧
    Access.isHost (.jsonlLookupByUid "") = false ∧
    w4cex.spool "2021010100_IT_webconnectivity/x.post" =
      .found { format := some "json", content := some [7] } ∧
    w4cex.hostResp "peer.example" "anypath" =
      .response 200 (some { format := some "json", content := some [42] }) := by
  refine ⟨by decide, by decide, by decide, by decide, by decide⟩

theorem finalizeBody_trace (r : Except FetchError (Option (List Nat)) ×
    List Access) : (finalizeBody r).2 = r.2 := by
  rcases r with ⟨v, tr⟩
  cases v with
  | error e => rfl
  | ok ov =>
    cases ov with
    | none => rfl
    | some b =>
      cases b with
      | nil => rfl
      | cons x xs => rfl

/-- Claim C4 amended: for identifiers in the new measurement_uid form
(report_id with five underscores and a nonempty uid) that are not
classified Fresh, the orchestrator probes the archive path first, then the
local spool, then the peer hosts, any success short-circuiting the rest;
an identifier lacking that form — in particular one given only in the
(report_id, input) shape — is resolved through the archive path alone,
with no spool or peer fallback. -/
theorem archived_chain_order (w : World) (ts report_id : String)
    (input : Option String) (uid : String) :
    (report_id.data.count '_' = 5 → uid.data ≠ [] → isFresh ts uid = false →
      ((∀ b trc, b ≠ [] →
        fetch_jsonl_measurement_body_clickhouse w report_id input (some uid) =
          (.ok (some b), trc) →
        fetch_measurement_body w ts report_id input uid = (.ok b, trc) ∧
        trc.all Access.isArchive = true) ∧
      (∀ cv trc b trd,
        fetch_jsonl_measurement_body_clickhouse w report_id input (some uid) =
          (.ok cv, trc) →
        truthy cv = false → b ≠ [] →
        fetch_measurement_body_on_disk_by_msmt_uid w uid =
          (.ok (some b), trd) →
        fetch_measurement_body w ts report_id input uid = (.ok b, trc ++ trd) ∧
        (trc ++ trd).all (fun a => a.isArchive || a.isSpool) = true) ∧
      (∀ cv trc dv trd b trh,
        fetch_jsonl_measurement_body_clickhouse w report_id input (some uid) =
          (.ok cv, trc) →
        truthy cv = false →
        fetch_measurement_body_on_disk_by_msmt_uid w uid = (.ok dv, trd) →
        truthy dv = false → b ≠ [] →
        fetch_measurement_body_from_hosts w uid = (some b, trh) →
        fetch_measurement_body w ts report_id input uid =
          (.ok b, trc ++ (trd ++ trh))))) ∧
    ((report_id.data.count '_' ≠ 5 ∨ uid.data = []) →
      (fetch_measurement_body w ts report_id input uid).2.all
        Access.isArchive = true) := by
  constructor
  · intro hc hu hf
    refine ⟨?_, ?_, ?_⟩
    · intro b trc hb hclick
      have htr : truthy (some b) = true := by
        cases b with
        | nil => exact absurd rfl hb
        | cons x xs => rfl
      refine ⟨?_, ?_⟩
      · rw [fetch_body_archived_eq w ts report_id input uid hc hu hf]
        unfold archivedChain
        rw [hclick, orElseT_truthy _ _ _ htr, finalizeBody_truthy _ _ hb]
      · have t1 := click_trace_archive w report_id input (some uid)
        rw [hclick] at t1
        exact t1
    · intro cv trc b trd hclick hcv hb hdisk
      have htr : truthy (some b) = true := by
        cases b with
        | nil => exact absurd rfl hb
        | cons x xs => rfl
      have hB : orElseT (fetch_measurement_body_on_disk_by_msmt_uid w uid)
          (liftProbe (fetch_measurement_body_from_hosts w uid)) =
          (.ok (some b), trd) := by
        rw [hdisk, orElseT_truthy _ _ _ htr]
      refine ⟨?_, ?_⟩
      · rw [fetch_body_archived_eq w ts report_id input uid hc hu hf]
        unfold archivedChain
        rw [hclick, hB]
        have hstep : orElseT
            ((.ok cv : Except FetchError (Option (List Nat))), trc)
            ((.ok (some b) : Except FetchError (Option (List Nat))), trd) =
            (.ok (some b), trc ++ trd) := by
          simp [orElseT, hcv]
        rw [hstep]
        show finalizeBody (.ok (some b), trc ++ trd) = (.ok b, trc ++ trd)
        rw [finalizeBody_truthy _ _ hb]
      · have t1 := click_trace_archive w report_id input (some uid)
        rw [hclick] at t1
        have t2 := disk_trace_spool w uid
        rw [hdisk] at t2
        have t1w : trc.all (fun a => a.isArchive || a.isSpool) = true :=
          all_weaken (fun a ha => by simp [ha]) t1
        have t2w : trd.all (fun a => a.isArchive || a.isSpool) = true :=
          all_weaken (fun a ha => by simp [ha]) t2
        simp [List.all_append, t1w, t2w]
    · intro cv trc dv trd b trh hclick hcv hdisk hdv hb hhosts
      have htr : truthy (some b) = true := by
        cases b with
        | nil => exact absurd rfl hb
        | cons x xs => rfl
      have hB : orElseT (fetch_measurement_body_on_disk_by_msmt_uid w uid)
          (liftProbe (fetch_measurement_body_from_hosts w uid)) =
          (.ok (some b), trd ++ trh) := by
        rw [hdisk, orElseT_falsy _ _ _ hdv, hhosts]
        simp [liftProbe]
      rw [fetch_body_archived_eq w ts report_id input uid hc hu hf]
      unfold archivedChain
      rw [hclick, hB]
      have hstep : orElseT
          ((.ok cv : Except FetchError (Option (List Nat))), trc)
          ((.ok (some b) : Except FetchError (Option (List Nat))), trd ++ trh) =
          (.ok (some b), trc ++ (trd ++ trh)) := by
        simp [orElseT, hcv]
      rw [hstep]
      show finalizeBody (.ok (some b), trc ++ (trd ++ trh)) =
        (.ok b, trc ++ (trd ++ trh))
      rw [finalizeBody_truthy _ _ hb]
  · intro h
    rw [fetch_body_old_eq w ts report_id input uid h, finalizeBody_trace]
    exact click_trace_archive w report_id input (some uid)

def uid4 : String := "20200101000000.000000_FR_ndt_w4claim"

def rid4 : String := "20200101T000000Z_ndt_FR_5678_n1_w4"

def w4 : World :=
  { spool := fun _ => .missing
    hosts := []
    hostResp := fun _ _ => .transportError
    db := { fastpath := [{ measurement_uid := uid4, report_id := "r4",
                           input := "i4" }]
            jsonl := [{ report_id := "r4", input := "i4", s3path := "p4",
                        linenum := 0 }] }
    dbFails := fun _ => false
    s3 := fun p n => if p = "p4" && n == 0 then some [9] else none }

theorem archived_chain_order_witness :
    rid4.data.count '_' = 5 ∧ uid4.data ≠ [] ∧
    isFresh "999999999999" uid4 = false ∧ ([9] : List Nat) ≠ [] ∧
    fetch_jsonl_measurement_body_clickhouse w4 rid4 none (some uid4) =
      (.ok (some [9]), [.jsonlLookupByUid uid4, .s3Fetch "p4" 0]) ∧
    (fetch_measurement_body w4 "999999999999" rid4 none uid4 =
      (.ok [9], [.jsonlLookupByUid uid4, .s3Fetch "p4" 0]) ∧
     ([Access.jsonlLookupByUid uid4, Access.s3Fetch "p4" 0].all
       Access.isArchive) = true) :=
  ⟨by decide, by decide, by decide, by decide, by decide,
   ((archived_chain_order w4 "999999999999" rid4 none uid4).1 (by decide)
     (by decide) (by decide)).1 [9]
     [.jsonlLookupByUid uid4, .s3Fetch "p4" 0] (by decide) (by decide)⟩

def w5cex : World :=
  { spool := fun _ => .missing
    hosts := []
    hostResp := fun _ _ => .transportError
    db := { fastpath := [], jsonl := [] }
    dbFails := fun _ => false
    s3 := fun _ _ => none }

/-- Claim C5 counterexample: a malformed measurement_uid (here the
two-character uid 20, which fails the four-field underscore split) reaching
the local spool probe on the non-fresh chain makes the orchestrator raise
MalformedIdentifier, which is not NotFound: the structural checks of the
spool probe run outside its try block, so the error propagates out of the
orchestrator instead of being absorbed and advancing the chain. -/
theorem spool_malformed_error_escapes_cex :
    fetch_measurement_body w5cex "999999999999" "a_b_c_d_e_f" none "20" =
      (.error .malformedIdentifier, [.jsonlLookupByUid "20"]) ∧
    (FetchError.malformedIdentifier ≠ FetchError.msmtNotFound) := by
  refine ⟨by decide, by decide⟩

theorem orElseT_error_inv (a b : Except FetchError (Option (List Nat)) ×
    List Access) (e : FetchError) (h : (orElseT a b).1 = .error e) :
    a.1 = .error e ∨ b.1 = .error e := by
  rcases a with ⟨av, tr⟩
  cases av with
  | error e2 =>
    left
    simpa [orElseT] using h
  | ok v =>
    by_cases hv : truthy v
    · rw [orElseT_truthy _ _ _ hv] at h
      simp at h
    · right
      rw [orElseT_falsy _ _ _ (by simpa using hv)] at h
      exact h

theorem liftProbe_fst (p : Option (List Nat) × List Access) :
    (liftProbe p).1 = .ok p.1 := rfl

theorem freshChain_error (w : World) (report_id : String)
    (input : Option String) (uid : String) (e : FetchError)
    (h : (freshChain w report_id input uid).1 = .error e) :
    (∃ trd, fetch_measurement_body_on_disk_by_msmt_uid w uid =
      (.error e, trd)) ∨
    (∃ trc, fetch_jsonl_measurement_body_clickhouse w report_id input
      (some uid) = (.error e, trc)) := by
  unfold freshChain at h
  rcases orElseT_error_inv _ _ _ h with h1 | h1
  · refine Or.inl ⟨(fetch_measurement_body_on_disk_by_msmt_uid w uid).2, ?_⟩
    rw [← h1]
  · rcases orElseT_error_inv _ _ _ h1 with h2 | h2
    · simp [liftProbe_fst] at h2
    · refine Or.inr ⟨(fetch_jsonl_measurement_body_clickhouse w report_id
        input (some uid)).2, ?_⟩
      rw [← h2]

theorem archivedChain_error (w : World) (report_id : String)
    (input : Option String) (uid : String) (e : FetchError)
    (h : (archivedChain w report_id input uid).1 = .error e) :
    (∃ trd, fetch_measurement_body_on_disk_by_msmt_uid w uid =
      (.error e, trd)) ∨
    (∃ trc, fetch_jsonl_measurement_body_clickhouse w report_id input
      (some uid) = (.error e, trc)) := by
  unfold archivedChain at h
  rcases orElseT_error_inv _ _ _ h with h1 | h1
  · refine Or.inr ⟨(fetch_jsonl_measurement_body_clickhouse w report_id
      input (some uid)).2, ?_⟩
    rw [← h1]
  · rcases orElseT_error_inv _ _ _ h1 with h2 | h2
    · refine Or.inl ⟨(fetch_measurement_body_on_disk_by_msmt_uid w uid).2, ?_⟩
      rw [← h2]
    · simp [liftProbe_fst] at h2

theorem finalizeBody_cases (r : Except FetchError (Option (List Nat)) ×
    List Access) :
    (∃ b, b ≠ [] ∧ (finalizeBody r).1 = .ok b) ∨
    (finalizeBody r).1 = .error .msmtNotFound ∨
    (∃ e, r.1 = .error e ∧ (finalizeBody r).1 = .error e) := by
  rcases r with ⟨v, tr⟩
  cases v with
  | error e => exact Or.inr (Or.inr ⟨e, rfl, rfl⟩)
  | ok ov =>
    cases ov with
    | none => exact Or.inr (Or.inl rfl)
    | some b =>
      cases b with
      | nil => exact Or.inr (Or.inl rfl)
      | cons x xs => exact Or.inl ⟨x :: xs, by simp, rfl⟩

theorem fetch_body_eq_cases (w : World) (ts report_id : String)
    (input : Option String) (uid : String) :
    fetch_measurement_body w ts report_id input uid =
      finalizeBody (freshChain w report_id input uid) ∨
    fetch_measurement_body w ts report_id input uid =
      finalizeBody (archivedChain w report_id input uid) ∨
    fetch_measurement_body w ts report_id input uid =
      finalizeBody (fetch_jsonl_measurement_body_clickhouse w report_id input
        (some uid)) := by
  by_cases h1 : ((report_id.data.count '_' == 5 && !uid.data.isEmpty) &&
      isFresh ts uid) = true
  · exact Or.inl (by simp [fetch_measurement_body, h1])
  · by_cases h2 : (report_id.data.count '_' == 5 && !uid.data.isEmpty) = true
    · have hf : isFresh ts uid = false := by
        cases hif : isFresh ts uid
        · rfl
        · exact absurd (by simp [h2, hif]) h1
      exact Or.inr (Or.inl (by simp [fetch_measurement_body, h1, h2, hf]))
    · exact Or.inr (Or.inr (by simp [fetch_measurement_body, h1, h2]))

/-- Claim C5 amended: for every resolution request, every outcome of the
orchestrator is one of: a nonempty body; the terminal NotFound; an error
propagated unchanged from the local spool probe (MalformedIdentifier from
the structural uid checks, the unexpected-format error of a spool
wrapper, an IO error other than file-not-found, or a spool parse error -
all raised past the except clause that catches only FileNotFoundError);
or an error propagated unchanged from the archive probe, whose uid branch
catches only MsmtNotFound and therefore lets a database-layer error
escape.  Failures of the peer-host probe are absorbed and the chain
advances (the probe never raises), and the S3 fetch and the (report_id,
input) branch of the archive probe absorb their failures; but, contrary
to the claim, NotFound is not the only failure surfaced to the caller:
spool-probe errors and uid-lookup database errors escape instead of
advancing the chain. -/
theorem orchestrator_error_characterization (w : World)
    (ts report_id : String) (input : Option String) (uid : String) :
    (∃ b, b ≠ [] ∧
      (fetch_measurement_body w ts report_id input uid).1 = .ok b) ∨
    (fetch_measurement_body w ts report_id input uid).1 =
      .error .msmtNotFound ∨
    (∃ e trd, (fetch_measurement_body w ts report_id input uid).1 =
        .error e ∧
      fetch_measurement_body_on_disk_by_msmt_uid w uid = (.error e, trd)) ∨
    (∃ e trc, (fetch_measurement_body w ts report_id input uid).1 =
        .error e ∧
      fetch_jsonl_measurement_body_clickhouse w report_id input (some uid) =
        (.error e, trc)) := by
  rcases fetch_body_eq_cases w ts report_id input uid with hq | hq | hq
  · rw [hq]
    rcases finalizeBody_cases (freshChain w report_id input uid) with
      h | h | ⟨e, he, hf⟩
    · exact Or.inl h
    · exact Or.inr (Or.inl h)
    · rcases freshChain_error w report_id input uid e he with
        ⟨trd, hd⟩ | ⟨trc, hcl⟩
      · exact Or.inr (Or.inr (Or.inl ⟨e, trd, hf, hd⟩))
      · exact Or.inr (Or.inr (Or.inr ⟨e, trc, hf, hcl⟩))
  · rw [hq]
    rcases finalizeBody_cases (archivedChain w report_id input uid) with
      h | h | ⟨e, he, hf⟩
    · exact Or.inl h
    · exact Or.inr (Or.inl h)
    · rcases archivedChain_error w report_id input uid e he with
        ⟨trd, hd⟩ | ⟨trc, hcl⟩
      · exact Or.inr (Or.inr (Or.inl ⟨e, trd, hf, hd⟩))
      · exact Or.inr (Or.inr (Or.inr ⟨e, trc, hf, hcl⟩))
  · rw [hq]
    rcases finalizeBody_cases
      (fetch_jsonl_measurement_body_clickhouse w report_id input (some uid))
      with h | h | ⟨e, he, hf⟩
    · exact Or.inl h
    · exact Or.inr (Or.inl h)
    · refine Or.inr (Or.inr (Or.inr ⟨e,
        (fetch_jsonl_measurement_body_clickhouse w report_id input
          (some uid)).2, hf, ?_⟩))
      rw [← he]

/-- Claim C6: a measurement_uid with the wrong number of underscore-delimited
fields, or whose ten-character hour prefix does not parse as an integer, is
rejected by the structural checks of both the spool probe and the
peer-host probe before any spool path exists: for every world the spool
probe returns MalformedIdentifier with an empty access trace (no
filesystem access) and the peer-host probe returns not-present with an
empty access trace (no network access). -/
theorem malformed_uid_rejected_before_access (w : World) (uid : String)
    (h : (chSplit '_' uid.data).length ≠ 4 ∨
      pyIntOk (((chSplit '_' uid.data).headD []).take 10) = false) :
    fetch_measurement_body_on_disk_by_msmt_uid w uid =
      (.error .malformedIdentifier, []) ∧
    fetch_measurement_body_from_hosts w uid = (none, []) := by
  have hrel : spoolRelPath uid = none := by
    by_cases hsw : startsWith20 uid.data
    · rcases hsp : chSplit '_' uid.data with _ | ⟨t, l2⟩
      · simp [spoolRelPath, hsw, hsp]
      · rcases l2 with _ | ⟨c, l3⟩
        · simp [spoolRelPath, hsw, hsp]
        · rcases l3 with _ | ⟨n, l4⟩
          · simp [spoolRelPath, hsw, hsp]
          · rcases l4 with _ | ⟨h4, l5⟩
            · simp [spoolRelPath, hsw, hsp]
            · rcases l5 with _ | ⟨x, rest⟩
              · rcases h with hlen | hint
                · exact absurd (by rw [hsp]; rfl) hlen
                · have hint2 : pyIntOk (t.take 10) = false := by
                    have hh : (chSplit '_' uid.data).headD [] = t := by
                      rw [hsp]
                      rfl
                    rwa [hh] at hint
                  simp [spoolRelPath, hsw, hsp, hint2]
              · simp [spoolRelPath, hsw, hsp]
    · simp [spoolRelPath, hsw]
  constructor
  · simp [fetch_measurement_body_on_disk_by_msmt_uid, hrel]
  · simp [fetch_measurement_body_from_hosts, hrel]

def w6 : World :=
  { spool := fun _ => .found { format := some "json", content := some [6] }
    hosts := ["p6"]
    hostResp := fun _ _ =>
      .response 200 (some { format := some "json", content := some [6] })
    db := { fastpath := [], jsonl := [] }
    dbFails := fun _ => false
    s3 := fun _ _ => none }

theorem malformed_uid_rejected_before_access_witness :
    ((chSplit '_' ("20w6" : String).data).length ≠ 4 ∨
      pyIntOk (((chSplit '_' ("20w6" : String).data).headD []).take 10) =
        false) ∧
    (fetch_measurement_body_on_disk_by_msmt_uid w6 "20w6" =
      (.error .malformedIdentifier, []) ∧
     fetch_measurement_body_from_hosts w6 "20w6" = (none, [])) :=
  ⟨Or.inl (by decide),
   malformed_uid_rejected_before_access w6 "20w6" (Or.inl (by decide))⟩

/-- Claim C7: behaviour of the peer-host probe at each configured host,
consulted in configured order (the loop steps through the host list front
to back, recording one access per consulted host): a 404 response means
not present and the next peer is tried; any other non-200 status, a
transport error, a 200 body that fails to parse, and a 200 wrapper whose
format discriminator is not exactly json are all treated as not present
and the chain continues with the remaining peers; a 200 wrapper with
format json returns its content payload immediately. -/
theorem host_probe_per_host (w : World) (path h : String) (hs : List String) :
    (∀ d, w.hostResp h path = .response 404 d →
      fetch_from_hosts_loop w path (h :: hs) =
        ((fetch_from_hosts_loop w path hs).1,
         .hostGet h path :: (fetch_from_hosts_loop w path hs).2)) ∧
    (∀ s d, w.hostResp h path = .response s d → s ≠ 200 →
      fetch_from_hosts_loop w path (h :: hs) =
        ((fetch_from_hosts_loop w path hs).1,
         .hostGet h path :: (fetch_from_hosts_loop w path hs).2)) ∧
    (w.hostResp h path = .transportError →
      fetch_from_hosts_loop w path (h :: hs) =
        ((fetch_from_hosts_loop w path hs).1,
         .hostGet h path :: (fetch_from_hosts_loop w path hs).2)) ∧
    (w.hostResp h path = .response 200 none →
      fetch_from_hosts_loop w path (h :: hs) =
        ((fetch_from_hosts_loop w path hs).1,
         .hostGet h path :: (fetch_from_hosts_loop w path hs).2)) ∧
    (∀ post, w.hostResp h path = .response 200 (some post) →
      post.format.getD "" ≠ "json" →
      fetch_from_hosts_loop w path (h :: hs) =
        ((fetch_from_hosts_loop w path hs).1,
         .hostGet h path :: (fetch_from_hosts_loop w path hs).2)) ∧
    (∀ post, w.hostResp h path = .response 200 (some post) →
      post.format.getD "" = "json" →
      fetch_from_hosts_loop w path (h :: hs) =
        (some (post.content.getD [123, 125]), [.hostGet h path])) := by
  refine ⟨?_, ?_, ?_, ?_, ?_, ?_⟩
  · intro d hr
    simp [fetch_from_hosts_loop, hr]
  · intro s d hr hs200
    by_cases h404 : s = 404
    · subst h404
      simp [fetch_from_hosts_loop, hr]
    · simp [fetch_from_hosts_loop, hr, h404, hs200]
  · intro hr
    simp [fetch_from_hosts_loop, hr]
  · intro hr
    simp [fetch_from_hosts_loop, hr]
  · intro post hr hfmt
    simp [fetch_from_hosts_loop, hr, unwrap_post, hfmt]
  · intro post hr hfmt
    simp [fetch_from_hosts_loop, hr, unwrap_post, hfmt]

def post7 : Post := { format := some "json", content := some [3] }

def w7 : World :=
  { spool := fun _ => .missing
    hosts := ["a", "b"]
    hostResp := fun hst _ =>
      if hst = "a" then .response 404 none else .response 200 (some post7)
    db := { fastpath := [], jsonl := [] }
    dbFails := fun _ => false
    s3 := fun _ _ => none }

theorem host_probe_per_host_witness :
    (w7.hostResp "a" "pp" = .response 404 none ∧
     fetch_from_hosts_loop w7 "pp" ["a", "b"] =
       ((fetch_from_hosts_loop w7 "pp" ["b"]).1,
        .hostGet "a" "pp" :: (fetch_from_hosts_loop w7 "pp" ["b"]).2)) ∧
    (w7.hostResp "b" "pp" = .response 200 (some post7) ∧
     post7.format.getD "" = "json" ∧
     fetch_from_hosts_loop w7 "pp" ["b"] =
       (some (post7.content.getD [123, 125]), [.hostGet "b" "pp"])) :=
  ⟨⟨by decide, (host_probe_per_host w7 "pp" "a" ["b"]).1 none (by decide)⟩,
   ⟨by decide, by decide,
    (host_probe_per_host w7 "pp" "b" []).2.2.2.2.2 post7 (by decide)
      (by decide)⟩⟩

theorem uid_pairs_mem (db : Db) (uid : String) (j : JsonlRow) :
    (((db.fastpath.filter (fun r => r.measurement_uid == uid)).map
      (fun r => (r.report_id, r.input))).contains (j.report_id, j.input))
      = true ↔
    ∃ f ∈ db.fastpath, f.measurement_uid = uid ∧
      j.report_id = f.report_id ∧ j.input = f.input := by
  rw [show (((db.fastpath.filter (fun r => r.measurement_uid == uid)).map
      (fun r => (r.report_id, r.input))).contains (j.report_id, j.input))
      = true ↔ (j.report_id, j.input) ∈
        ((db.fastpath.filter (fun r => r.measurement_uid == uid)).map
          (fun r => (r.report_id, r.input))) from List.elem_iff]
  rw [List.mem_map]
  constructor
  · rintro ⟨f, hf, heq⟩
    rw [List.mem_filter] at hf
    rw [Prod.mk.injEq] at heq
    exact ⟨f, hf.1, by simpa using hf.2, heq.1.symm, heq.2.symm⟩
  · rintro ⟨f, hf, huid, hrid, hinp⟩
    refine ⟨f, ?_, ?_⟩
    · rw [List.mem_filter]
      exact ⟨hf, by simpa using huid⟩
    · rw [Prod.mk.injEq]
      exact ⟨hrid.symm, hinp.symm⟩

/-- Claim C8: the index lookup by measurement_uid resolves the (report_id,
input) pair internally from the fastpath table and then the coordinates
from the jsonl table, behind the single lookup contract returning at most
one row of coordinates: it fails with the NotIndexed error (MsmtNotFound in
the code) exactly when no jsonl row matches a fastpath pair of the uid,
and any returned coordinates belong to one matching jsonl row. -/
theorem locate_by_uid (db : Db) (uid : String) :
    (measurement_uid_to_s3path_linenum db uid = .error .msmtNotFound ↔
      ∀ j ∈ db.jsonl, ∀ f ∈ db.fastpath, f.measurement_uid = uid →
        ¬(j.report_id = f.report_id ∧ j.input = f.input)) ∧
    (∀ p n, measurement_uid_to_s3path_linenum db uid = .ok (p, n) →
      ∃ j ∈ db.jsonl, j.s3path = p ∧ j.linenum = n ∧
        ∃ f ∈ db.fastpath, f.measurement_uid = uid ∧
          j.report_id = f.report_id ∧ j.input = f.input) := by
  constructor
  · constructor
    · intro h j hj f hf huid ⟨hrid, hinp⟩
      unfold measurement_uid_to_s3path_linenum at h
      cases hfind : List.find? (fun j =>
          ((db.fastpath.filter (fun r => r.measurement_uid == uid)).map
            (fun r => (r.report_id, r.input))).contains
          (j.report_id, j.input)) db.jsonl with
      | some jr => rw [hfind] at h; exact absurd h (by simp)
      | none =>
        rw [List.find?_eq_none] at hfind
        exact hfind j hj ((uid_pairs_mem db uid j).mpr
          ⟨f, hf, huid, hrid, hinp⟩)
    · intro hnone
      unfold measurement_uid_to_s3path_linenum
      cases hfind : List.find? (fun j =>
          ((db.fastpath.filter (fun r => r.measurement_uid == uid)).map
            (fun r => (r.report_id, r.input))).contains
          (j.report_id, j.input)) db.jsonl with
      | none => rfl
      | some jr =>
        have hmem := List.mem_of_find?_eq_some hfind
        have hpred := List.find?_some hfind
        obtain ⟨f, hf, huid, hrid, hinp⟩ := (uid_pairs_mem db uid jr).mp hpred
        exact absurd ⟨hrid, hinp⟩ (hnone jr hmem f hf huid)
  · intro p n h
    unfold measurement_uid_to_s3path_linenum at h
    cases hfind : List.find? (fun j =>
        ((db.fastpath.filter (fun r => r.measurement_uid == uid)).map
          (fun r => (r.report_id, r.input))).contains
        (j.report_id, j.input)) db.jsonl with
    | none => rw [hfind] at h; exact absurd h (by simp)
    | some jr =>
      rw [hfind] at h
      have hmem := List.mem_of_find?_eq_some hfind
      have hpred := List.find?_some hfind
      obtain ⟨f, hf, huid, hrid, hinp⟩ := (uid_pairs_mem db uid jr).mp hpred
      have hpn : jr.s3path = p ∧ jr.linenum = n := by
        have := h
        simp only [Except.ok.injEq, Prod.mk.injEq] at this
        exact this
      exact ⟨jr, hmem, hpn.1, hpn.2, f, hf, huid, hrid, hinp⟩

def db8 : Db :=
  { fastpath := [{ measurement_uid := "u8", report_id := "r8", input := "i8" }]
    jsonl := [{ report_id := "r8", input := "i8", s3path := "s8",
                linenum := 3 }] }

theorem locate_by_uid_witness :
    measurement_uid_to_s3path_linenum db8 "u8" = .ok ("s8", 3) ∧
    ∃ j ∈ db8.jsonl, j.s3path = "s8" ∧ j.linenum = 3 ∧
      ∃ f ∈ db8.fastpath, f.measurement_uid = "u8" ∧
        j.report_id = f.report_id ∧ j.input = f.input :=
  ⟨by decide, (locate_by_uid db8 "u8").2 "s8" 3 (by decide)⟩

/-- ASCII digit test used to state the freshness characterization. -/
def isDig (c : Char) : Bool := 48 ≤ c.toNat && c.toNat ≤ 57

/-- Numeric value of a most-significant-digit-first digit string; on the
twelve-character YYYYmmddHHMM strings compared by the freshness test this
numeric order is exactly chronological order. -/
def digitsVal : List Char → Nat
  | [] => 0
  | c :: cs => (c.toNat - 48) * 10 ^ cs.length + digitsVal cs

theorem charEqOfToNat (c d : Char) (h : c.toNat = d.toNat) : c = d := by
  have hv : c.val.toNat = d.val.toNat := h
  exact Char.ext (UInt32.toNat.inj hv)

theorem digitsVal_lt_pow (l : List Char) (h : l.all isDig = true) :
    digitsVal l < 10 ^ l.length := by
  induction l with
  | nil => simp [digitsVal]
  | cons c cs ih =>
    rw [List.all_cons, Bool.and_eq_true] at h
    have hc : 48 ≤ c.toNat ∧ c.toNat ≤ 57 := by simpa [isDig] using h.1
    have hlt := ih h.2
    have hstep : digitsVal (c :: cs) < 10 ^ (cs.length + 1) :=
      calc digitsVal (c :: cs)
          = (c.toNat - 48) * 10 ^ cs.length + digitsVal cs := rfl
        _ < (c.toNat - 48) * 10 ^ cs.length + 10 ^ cs.length :=
            Nat.add_lt_add_left hlt _
        _ = (c.toNat - 48 + 1) * 10 ^ cs.length := by ring
        _ ≤ 10 * 10 ^ cs.length :=
            Nat.mul_le_mul_right _ (by omega)
        _ = 10 ^ (cs.length + 1) := by ring
    simpa using hstep

theorem digitsVal_head_lt (c d : Char) (as bs : List Char)
    (hlen : as.length = bs.length) (hc : 48 ≤ c.toNat)
    (hcd : c.toNat < d.toNat) (has : as.all isDig = true) :
    digitsVal (c :: as) < digitsVal (d :: bs) := by
  have hva := digitsVal_lt_pow as has
  calc digitsVal (c :: as)
      = (c.toNat - 48) * 10 ^ as.length + digitsVal as := rfl
    _ < (c.toNat - 48) * 10 ^ as.length + 10 ^ as.length :=
        Nat.add_lt_add_left hva _
    _ = (c.toNat - 48 + 1) * 10 ^ as.length := by ring
    _ ≤ (d.toNat - 48) * 10 ^ as.length :=
        Nat.mul_le_mul_right _ (by omega)
    _ = (d.toNat - 48) * 10 ^ bs.length := by rw [hlen]
    _ ≤ (d.toNat - 48) * 10 ^ bs.length + digitsVal bs := Nat.le_add_right _ _
    _ = digitsVal (d :: bs) := rfl

theorem lexLt_cons (a b : Char) (as bs : List Char) :
    lexLt (a :: as) (b :: bs) =
      if a < b then true else if b < a then false else lexLt as bs := rfl

theorem lexLt_iff_digitsVal : ∀ (a b : List Char), a.all isDig = true →
    b.all isDig = true → a.length = b.length →
    (lexLt a b = true ↔ digitsVal a < digitsVal b)
  | [], [] => by
    intro _ _ _
    simp [lexLt, digitsVal]
  | [], b :: bs => by
    intro _ _ h
    simp at h
  | a :: as, [] => by
    intro _ _ h
    simp at h
  | a :: as, b :: bs => by
    intro ha hb hlen
    rw [List.all_cons, Bool.and_eq_true] at ha hb
    have ha1 : 48 ≤ a.toNat ∧ a.toNat ≤ 57 := by simpa [isDig] using ha.1
    have hb1 : 48 ≤ b.toNat ∧ b.toNat ≤ 57 := by simpa [isDig] using hb.1
    have hlen2 : as.length = bs.length := by simpa using hlen
    rcases Nat.lt_trichotomy a.toNat b.toNat with hlt | heq | hgt
    · have hab : a < b := hlt
      constructor
      · intro _
        exact digitsVal_head_lt a b as bs hlen2 ha1.1 hlt ha.2
      · intro _
        simp [lexLt, hab]
    · have hq : a = b := charEqOfToNat a b heq
      subst hq
      have hnaa : ¬ a < a := lt_irrefl a
      rw [lexLt_cons, if_neg hnaa, if_neg hnaa,
        lexLt_iff_digitsVal as bs ha.2 hb.2 hlen2]
      constructor
      · intro hv
        show (a.toNat - 48) * 10 ^ as.length + digitsVal as <
          (a.toNat - 48) * 10 ^ bs.length + digitsVal bs
        rw [hlen2]
        exact Nat.add_lt_add_left hv _
      · intro hv
        have hv2 : (a.toNat - 48) * 10 ^ as.length + digitsVal as <
            (a.toNat - 48) * 10 ^ bs.length + digitsVal bs := hv
        rw [hlen2] at hv2
        exact Nat.lt_of_add_lt_add_left hv2
    · have hba : b < a := hgt
      have hnab : ¬ a < b := by
        intro hx
        have hx2 : a.toNat < b.toNat := hx
        omega
      constructor
      · intro hl
        rw [lexLt_cons, if_neg hnab, if_pos hba] at hl
        exact absurd hl (by simp)
      · intro hv
        exact absurd hv
          (Nat.lt_asymm (digitsVal_head_lt b a bs as hlen2.symm hb1.1 hgt hb.2))

theorem lexLt_append : ∀ (a b r : List Char), a.length = b.length → r ≠ [] →
    (lexLt a (b ++ r) = true ↔ (lexLt a b = true ∨ a = b))
  | [], [], r => by
    intro _ hr
    cases r with
    | nil => exact absurd rfl hr
    | cons x xs => simp [lexLt]
  | [], b :: bs, _ => by
    intro h _
    simp at h
  | a :: as, [], _ => by
    intro h _
    simp at h
  | a :: as, b :: bs, r => by
    intro hlen hr
    have hlen2 : as.length = bs.length := by simpa using hlen
    rcases Nat.lt_trichotomy a.toNat b.toNat with hlt | heq | hgt
    · have hab : a < b := hlt
      simp [List.cons_append, lexLt, hab]
    · have hq : a = b := charEqOfToNat a b heq
      subst hq
      have hnaa : ¬ a < a := lt_irrefl a
      rw [List.cons_append, lexLt_cons, if_neg hnaa, if_neg hnaa,
        lexLt_cons, if_neg hnaa, if_neg hnaa,
        lexLt_append as bs r hlen2 hr]
      simp
    · have hba : b < a := hgt
      have hnab : ¬ a < b := by
        intro hx
        have hx2 : a.toNat < b.toNat := hx
        omega
      have hne : a ≠ b := by
        intro hx
        subst hx
        exact absurd (show a.toNat < a.toNat from hgt) (lt_irrefl _)
      simp [List.cons_append, lexLt, hnab, hba, hne]

theorem lexLt_total : ∀ (a b : List Char), a.length = b.length →
    lexLt a b = true ∨ a = b ∨ lexLt b a = true
  | [], [] => fun _ => Or.inr (Or.inl rfl)
  | [], b :: bs => by
    intro h
    simp at h
  | a :: as, [] => by
    intro h
    simp at h
  | a :: as, b :: bs => by
    intro hlen
    have hlen2 : as.length = bs.length := by simpa using hlen
    rcases Nat.lt_trichotomy a.toNat b.toNat with hlt | heq | hgt
    · exact Or.inl (by simp [lexLt, show a < b from hlt])
    · have hq : a = b := charEqOfToNat a b heq
      subst hq
      rcases lexLt_total as bs hlen2 with h | h | h
      · exact Or.inl (by simp [lexLt, lt_irrefl, h])
      · exact Or.inr (Or.inl (by rw [h]))
      · exact Or.inr (Or.inr (by simp [lexLt, lt_irrefl, h]))
    · exact Or.inr (Or.inr (by simp [lexLt, show b < a from hgt]))

/-- Claim C9: for an identifier in the measurement_uid form (here: its
first twelve characters are digits and more characters follow, as in the
14-digit-timestamp uid shape), the orchestrator classifies it Fresh
exactly when the timestamp embedded at the start of the uid, read as the
twelve-digit minute YYYYmmddHHMM, is at least the cutoff timestamp - the
current UTC time minus the one-hour archival horizon, formatted the same
way - that is, exactly when the embedded timestamp lies within the last
hour.  The classification `isFresh ts uid` is a function of the identifier
and the request cutoff alone, computed once per request. -/
theorem fresh_iff_embedded_timestamp (ts uid : String)
    (hts_len : ts.data.length = 12) (hts_dig : ts.data.all isDig = true)
    (huid_dig : (uid.data.take 12).all isDig = true)
    (huid_len : 12 < uid.data.length) :
    (isFresh ts uid = true ↔
      digitsVal ts.data ≤ digitsVal (uid.data.take 12)) := by
  have htl : (uid.data.take 12).length = 12 := by
    rw [List.length_take]
    exact Nat.min_eq_left (le_of_lt huid_len)
  have hr : uid.data.drop 12 ≠ [] := by
    intro hx
    have hld : (uid.data.drop 12).length = uid.data.length - 12 :=
      List.length_drop 12 uid.data
    rw [hx] at hld
    simp only [List.length_nil] at hld
    omega
  have hlen : ts.data.length = (uid.data.take 12).length := by
    rw [hts_len, htl]
  have h1 : isFresh ts uid =
      lexLt ts.data (uid.data.take 12 ++ uid.data.drop 12) := by
    unfold isFresh
    rw [List.take_append_drop]
  rw [h1, lexLt_append ts.data (uid.data.take 12) (uid.data.drop 12) hlen hr,
    lexLt_iff_digitsVal ts.data (uid.data.take 12) hts_dig huid_dig hlen]
  constructor
  · rintro (h | h)
    · exact le_of_lt h
    · rw [h]
  · intro h
    rcases eq_or_lt_of_le h with heq | hlt
    · rcases lexLt_total ts.data (uid.data.take 12) hlen with hl | hEq | hl2
      · exact Or.inl ((lexLt_iff_digitsVal ts.data (uid.data.take 12) hts_dig
          huid_dig hlen).mp hl)
      · exact Or.inr hEq
      · have hv2 := (lexLt_iff_digitsVal (uid.data.take 12) ts.data huid_dig
          hts_dig hlen.symm).mp hl2
        omega
    · exact Or.inl hlt

def uid9 : String := "20210208220845.999999_IT_ndt_w9"

theorem fresh_iff_embedded_timestamp_witness :
    ("202102082207" : String).data.length = 12 ∧
    ("202102082207" : String).data.all isDig = true ∧
    (uid9.data.take 12).all isDig = true ∧
    12 < uid9.data.length ∧
    (isFresh "202102082207" uid9 = true ↔
      digitsVal ("202102082207" : String).data ≤
        digitsVal (uid9.data.take 12)) :=
  ⟨by decide, by decide, by decide, by decide,
   fresh_iff_embedded_timestamp "202102082207" uid9 (by decide) (by decide)
     (by decide) (by decide)⟩

theorem finalizeBody_ne_nil (r : Except FetchError (Option (List Nat)) ×
    List Access) : (finalizeBody r).1 ≠ .ok ([] : List Nat) := by
  rcases r with ⟨v, tr⟩
  cases v with
  | error e => simp [finalizeBody]
  | ok ov =>
    cases ov with
    | none => simp [finalizeBody]
    | some b =>
      cases b with
      | nil => simp [finalizeBody]
      | cons x xs => simp [finalizeBody]

/-- Claim C10: a source that returns an empty byte string is treated by the
orchestrator exactly like a not-present source.  The orchestrator never
returns the empty body to the caller; on the fresh chain and on the
archived chain, when every probed source yields a falsy answer (absent or
empty body, both with `truthy` false) the chain continues through all
three sources - the final trace concatenates the accesses of all of them -
and the result is the NotFound error. -/
theorem empty_body_treated_not_present (w : World) (ts report_id : String)
    (input : Option String) (uid : String) :
    ((fetch_measurement_body w ts report_id input uid).1 ≠
      .ok ([] : List Nat)) ∧
    (∀ dv trd hv trh cv trc,
      report_id.data.count '_' = 5 → uid.data ≠ [] → isFresh ts uid = true →
      fetch_measurement_body_on_disk_by_msmt_uid w uid = (.ok dv, trd) →
      truthy dv = false →
      fetch_measurement_body_from_hosts w uid = (hv, trh) → truthy hv = false →
      fetch_jsonl_measurement_body_clickhouse w report_id input (some uid) =
        (.ok cv, trc) →
      truthy cv = false →
      fetch_measurement_body w ts report_id input uid =
        (.error .msmtNotFound, trd ++ (trh ++ trc))) ∧
    (∀ cv trc dv trd hv trh,
      report_id.data.count '_' = 5 → uid.data ≠ [] → isFresh ts uid = false →
      fetch_jsonl_measurement_body_clickhouse w report_id input (some uid) =
        (.ok cv, trc) →
      truthy cv = false →
      fetch_measurement_body_on_disk_by_msmt_uid w uid = (.ok dv, trd) →
      truthy dv = false →
      fetch_measurement_body_from_hosts w uid = (hv, trh) → truthy hv = false →
      fetch_measurement_body w ts report_id input uid =
        (.error .msmtNotFound, trc ++ (trd ++ trh))) := by
  refine ⟨?_, ?_, ?_⟩
  · rcases fetch_body_eq_cases w ts report_id input uid with hq | hq | hq <;>
      rw [hq] <;> exact finalizeBody_ne_nil _
  · intro dv trd hv trh cv trc hc hu hf hdisk hdv hhosts hhv hclick hcv
    rw [fetch_body_fresh_eq w ts report_id input uid hc hu hf]
    unfold freshChain
    rw [hdisk, orElseT_falsy _ _ _ hdv, hhosts, hclick]
    have hstep : orElseT (liftProbe (hv, trh))
        ((.ok cv : Except FetchError (Option (List Nat))), trc) =
        (.ok cv, trh ++ trc) := by
      simp [liftProbe, orElseT, hhv]
    rw [hstep]
    show finalizeBody (.ok cv, trd ++ (trh ++ trc)) =
      (.error .msmtNotFound, trd ++ (trh ++ trc))
    rw [finalizeBody_falsy _ _ hcv]
  · intro cv trc dv trd hv trh hc hu hf hclick hcv hdisk hdv hhosts hhv
    rw [fetch_body_archived_eq w ts report_id input uid hc hu hf]
    unfold archivedChain
    rw [hclick, hdisk, orElseT_falsy _ _ _ hdv, hhosts]
    have hB : ((liftProbe (hv, trh)).1, trd ++ (liftProbe (hv, trh)).2) =
        ((.ok hv : Except FetchError (Option (List Nat))), trd ++ trh) := rfl
    rw [hB]
    have hstep : orElseT
        ((.ok cv : Except FetchError (Option (List Nat))), trc)
        ((.ok hv : Except FetchError (Option (List Nat))), trd ++ trh) =
        (.ok hv, trc ++ (trd ++ trh)) := by
      simp [orElseT, hcv]
    rw [hstep]
    show finalizeBody (.ok hv, trc ++ (trd ++ trh)) =
      (.error .msmtNotFound, trc ++ (trd ++ trh))
    rw [finalizeBody_falsy _ _ hhv]

def uid10 : String := "20990101000000.000000_DE_ndt_w10"

def rid10 : String := "20990101T000000Z_ndt_DE_1_n1_w10"

def path10 : String :=
  "2099010100_DE_ndt/20990101000000.000000_DE_ndt_w10.post"

def w10 : World :=
  { spool := fun p => if p = path10
      then .found { format := some "json", content := some [] } else .missing
    hosts := ["hX"]
    hostResp := fun _ _ =>
      .response 200 (some { format := some "json", content := some [] })
    db := { fastpath := [{ measurement_uid := uid10, report_id := "rA",
                           input := "iA" }]
            jsonl := [{ report_id := "rA", input := "iA", s3path := "pA",
                        linenum := 1 }] }
    dbFails := fun _ => false
    s3 := fun p n => if p = "pA" && n == 1 then some [] else none }

theorem empty_body_treated_not_present_witness :
    rid10.data.count '_' = 5 ∧ uid10.data ≠ [] ∧
    isFresh "202101010000" uid10 = true ∧
    fetch_measurement_body_on_disk_by_msmt_uid w10 uid10 =
      (.ok (some []), [.spoolRead path10]) ∧
    truthy (some []) = false ∧
    fetch_measurement_body_from_hosts w10 uid10 =
      (some [], [.hostGet "hX" path10]) ∧
    fetch_jsonl_measurement_body_clickhouse w10 rid10 none (some uid10) =
      (.ok (some []), [.jsonlLookupByUid uid10, .s3Fetch "pA" 1]) ∧
    fetch_measurement_body w10 "202101010000" rid10 none uid10 =
      (.error .msmtNotFound,
       [Access.spoolRead path10] ++
         ([Access.hostGet "hX" path10] ++
           [Access.jsonlLookupByUid uid10, Access.s3Fetch "pA" 1])) :=
  ⟨by decide, by decide, by decide, by decide, by decide, by decide, by decide,
   (empty_body_treated_not_present w10 "202101010000" rid10 none uid10).2.1
     (some []) [.spoolRead path10] (some []) [.hostGet "hX" path10] (some [])
     [.jsonlLookupByUid uid10, .s3Fetch "pA" 1] (by decide) (by decide)
     (by decide) (by decide) (by decide) (by decide) (by decide) (by decide)
     (by decide)⟩
